import Mathlib

/-!
Verification of the rupture-detector repository's core engine against its
specification.  The repository's presentation shell is `src/app.py`; the core
module `rupture` (providing `compute_rcc` and `compute_ewma_threshold`) is
imported by `app.py` (line 4) but its source is not present in the repository
snapshot, so the core is modelled here from the specification's contract
(spec §4.1, §4.2, §7, §9).  Real numbers are embedded as rationals `ℚ`; the
seeded pseudo-random generator is, per spec §9 ("treat the noise model ... as a
configurable strategy (a pluggable function)"), an explicit function argument
`rng : Int → ℕ → ℚ` mapping a seed and a draw index to a sample, with
`noise = sigma * sample`.
-/

/-- Decidable equality for `Except`, used to evaluate the engine on concrete
inputs. -/
instance {ε α : Type _} [DecidableEq ε] [DecidableEq α] : DecidableEq (Except ε α) :=
  fun x y =>
    match x, y with
    | Except.error e1, Except.error e2 => decidable_of_iff (e1 = e2) (by simp)
    | Except.error _, Except.ok _ => isFalse (fun h => Except.noConfusion h)
    | Except.ok _, Except.error _ => isFalse (fun h => Except.noConfusion h)
    | Except.ok a1, Except.ok a2 => decidable_of_iff (a1 = a2) (by simp)

/-- Modelled from the spec (§3 Data Model): one Observation per timestamp, with
`Date` (embedded as an integer day number, strictly increasing), `Forecast`,
`Actual` and non-negative `Unit_Cost`.  The source module `rupture` is missing
from the repository snapshot. -/
structure Observation where
  date : Int
  forecast : ℚ
  actual : ℚ
  unit_cost : ℚ
deriving DecidableEq, Repr

/-- Modelled from the spec (§3 Data Model): a Derived Row is the Observation
plus `Delta`, `Theta(t)`, `IsRupture` and `Loss`. -/
structure DerivedRow where
  date : Int
  forecast : ℚ
  actual : ℚ
  unit_cost : ℚ
  delta : ℚ
  theta : ℚ
  isRupture : Bool
  loss : ℚ
deriving DecidableEq, Repr

/-- Modelled from the spec (§3 Data Model): a Final Row is a Derived Row plus
the smoothed threshold `Theta_EWMA`. -/
structure FinalRow where
  base : DerivedRow
  theta_ewma : ℚ
deriving DecidableEq, Repr

/-- Modelled from the spec (§7 Error Handling, §4.1): the distinct named
failure modes grouped under `InvalidInputError` — empty series, non-monotonic
dates, negative unit cost. -/
inductive InputFault where
  | emptySeries : InputFault
  | nonMonotonicDates : InputFault
  | negativeUnitCost : InputFault
deriving DecidableEq, Repr

/-- Modelled from the spec (§7 Error Handling): a parameter outside its
documented range, e.g. `alpha` outside (0,1). -/
inductive ParamFault where
  | alphaOutOfRange : ParamFault
deriving DecidableEq, Repr

/-- Modelled from the spec (§7 Error Handling): the error taxonomy
`InvalidInputError` / `InvalidParameterError`. -/
inductive RccError where
  | invalidInput : InputFault → RccError
  | invalidParameter : ParamFault → RccError
deriving DecidableEq, Repr

/-- Modelled from the spec (§9 Design Notes): the explicit accumulator state
`(prev_theta, prev_delta, prev_rupture_flag)` threaded through the fold. -/
structure RccState where
  prevTheta : ℚ
  prevDelta : ℚ
  prevRupture : Bool
deriving DecidableEq, Repr

/-- Modelled from the spec (§4.1 step 1, 3, 4): derive one row from an active
threshold `theta` and an observation: `Delta = Actual − Forecast`,
`IsRupture = |Delta| > Theta(t)`, `Loss = |Delta|·Unit_Cost` if rupture else 0. -/
def deriveRow (theta : ℚ) (o : Observation) : DerivedRow :=
  let delta := o.actual - o.forecast
  { date := o.date, forecast := o.forecast, actual := o.actual,
    unit_cost := o.unit_cost, delta := delta, theta := theta,
    isRupture := decide (theta < |delta|),
    loss := if theta < |delta| then |delta| * o.unit_cost else 0 }

/-- Modelled from the spec (§4.1 step 2): the threshold update
`Theta_t = max(0, Theta_{t-1} + c·Delta_{t-1} + noise_t − a·Theta_{t-1}·[rupture at t-1])`. -/
def nextTheta (c a noise : ℚ) (st : RccState) : ℚ :=
  max 0 (st.prevTheta + c * st.prevDelta + noise
    - a * st.prevTheta * (if st.prevRupture then 1 else 0))

/-- Modelled from the spec (§4.1 Algorithm, §9): the strictly sequential fold
over the remaining observations, carrying the accumulator state; `g` is the
already-seeded sample stream and `t` the index of the next row. -/
def rccLoop (g : ℕ → ℚ) (c a sigma : ℚ) : ℕ → RccState → List Observation → List DerivedRow
  | _, _, [] => []
  | t, st, o :: rest =>
    let row := deriveRow (nextTheta c a (sigma * g t) st) o
    row :: rccLoop g c a sigma (t + 1) ⟨row.theta, row.delta, row.isRupture⟩ rest

/-- Modelled from the spec (§4.1): `datesSorted` holds when the dates are
strictly increasing (sorted ascending, unique). -/
def datesSorted : List Observation → Bool
  | [] => true
  | [_] => true
  | x :: y :: rest => decide (x.date < y.date) && datesSorted (y :: rest)

/-- Modelled from the spec (§4.1): every row has `Unit_Cost ≥ 0`. -/
def costsOk (l : List Observation) : Bool :=
  l.all (fun o => decide (0 ≤ o.unit_cost))

/-- Modelled from the spec (§4.1 Contract):
`compute_rcc(series, c, a, Theta0, sigma, seed) → (DerivedSeries, RuptureSubset, TotalLoss)`.
The source module `rupture` is missing from the repository snapshot; the
pseudo-random generator is the pluggable strategy `rng` (spec §9).  Input
validation (empty series, non-monotonic dates, negative unit cost) precedes any
row processing; `Theta` at the first row is `Theta0`; subsequent rows follow the
fold `rccLoop`. -/
def compute_rcc (rng : Int → ℕ → ℚ) (series : List Observation)
    (c a Theta0 sigma : ℚ) (seed : Int) :
    Except RccError (List DerivedRow × List DerivedRow × ℚ) :=
  match series with
  | [] => Except.error (RccError.invalidInput InputFault.emptySeries)
  | o :: rest =>
    if datesSorted (o :: rest) then
      if costsOk (o :: rest) then
        let row1 := deriveRow Theta0 o
        let rows := row1 ::
          rccLoop (rng seed) c a sigma 1 ⟨row1.theta, row1.delta, row1.isRupture⟩ rest
        Except.ok (rows, rows.filter (fun r => r.isRupture),
          (rows.map (fun r => r.loss)).sum)
      else Except.error (RccError.invalidInput InputFault.negativeUnitCost)
    else Except.error (RccError.invalidInput InputFault.nonMonotonicDates)

/-- Modelled from the spec (§4.2 Algorithm): the EWMA recursion for t > 1,
`Theta_EWMA_t = alpha·X_t + (1−alpha)·Theta_EWMA_{t-1}` with `X_t` the
threshold trajectory scaled by `k`; `prev` is `Theta_EWMA_{t-1}`. -/
def ewmaLoop (alpha k : ℚ) : ℚ → List DerivedRow → List FinalRow
  | _, [] => []
  | prev, r :: rest =>
    let x := alpha * (k * r.theta) + (1 - alpha) * prev
    { base := r, theta_ewma := x } :: ewmaLoop alpha k x rest

/-- Modelled from the spec (§4.2 Contract):
`compute_ewma_threshold(DerivedSeries, alpha, k) → FinalSeries`.  The source
module `rupture` is missing from the repository snapshot.  Fails with
`InvalidParameterError` if `alpha ∉ (0,1)` (checked before any row processing)
and with `InvalidInputError` on an empty derived series; otherwise seeds
`Theta_EWMA_1` with the first observed threshold and recurses. -/
def compute_ewma_threshold (rows : List DerivedRow) (alpha k : ℚ) :
    Except RccError (List FinalRow) :=
  if 0 < alpha ∧ alpha < 1 then
    match rows with
    | [] => Except.error (RccError.invalidInput InputFault.emptySeries)
    | r :: rest =>
      Except.ok ({ base := r, theta_ewma := r.theta } :: ewmaLoop alpha k r.theta rest)
  else Except.error (RccError.invalidParameter ParamFault.alphaOutOfRange)

/-- User-tunable controls exposed by the application sidebar
(src/app.py lines 18–26): `c`, `a`, `Theta0`, `sigma`, `alpha`, `k`.
The seed is not among them. -/
structure AppParams where
  c : ℚ
  a : ℚ
  Theta0 : ℚ
  sigma : ℚ
  alpha : ℚ
  k : ℚ
deriving DecidableEq, Repr

/-- The application pipeline with an explicit seed: `compute_rcc` followed by
`compute_ewma_threshold` (src/app.py lines 47–48). -/
def app_pipeline_seeded (rng : Int → ℕ → ℚ) (df : List Observation)
    (p : AppParams) (seed : Int) :
    Except RccError (List FinalRow × List DerivedRow × ℚ) :=
  match compute_rcc rng df p.c p.a p.Theta0 p.sigma seed with
  | Except.error e => Except.error e
  | Except.ok (rows, rupt, total) =>
    match compute_ewma_threshold rows p.alpha p.k with
    | Except.error e => Except.error e
    | Except.ok finals => Except.ok (finals, rupt, total)

/-- The application pipeline as invoked by src/app.py line 47: the random seed
is fixed to 42 and is not user-tunable. -/
def app_pipeline (rng : Int → ℕ → ℚ) (df : List Observation) (p : AppParams) :
    Except RccError (List FinalRow × List DerivedRow × ℚ) :=
  app_pipeline_seeded rng df p 42

/-- The example scenario of spec §8: five daily rows with `Forecast = [100]*5`,
`Actual = [100,100,250,100,100]`, `Unit_Cost = [10]*5`. -/
def demoSeries : List Observation :=
  [⟨0, 100, 100, 10⟩, ⟨1, 100, 100, 10⟩, ⟨2, 100, 250, 10⟩,
   ⟨3, 100, 100, 10⟩, ⟨4, 100, 100, 10⟩]

/-- A concrete pluggable sample stream used for evaluating the engine on
concrete inputs (with `sigma = 0` the stream is irrelevant). -/
def demoRng : Int → ℕ → ℚ := fun _ _ => 0

/-- The derived series the spec §8 scenario expects: `Delta = [0,0,150,0,0]`,
`Theta(t)` constant at 100, `IsRupture = [F,F,T,F,F]`, `Loss = [0,0,1500,0,0]`. -/
def demoRows : List DerivedRow :=
  [⟨0, 100, 100, 10, 0, 100, false, 0⟩, ⟨1, 100, 100, 10, 0, 100, false, 0⟩,
   ⟨2, 100, 250, 10, 150, 100, true, 1500⟩, ⟨3, 100, 100, 10, 0, 100, false, 0⟩,
   ⟨4, 100, 100, 10, 0, 100, false, 0⟩]

/-- The rupture subset the spec §8 scenario expects: the single third row. -/
def demoRupt : List DerivedRow := [⟨2, 100, 250, 10, 150, 100, true, 1500⟩]

/-- Parameters used by the application witnesses: the spec §8 scenario values
for the sidebar controls. -/
def demoParams : AppParams := ⟨0, 0, 100, 0, 1/5, 3⟩

/-- The final series the spec §8 scenario yields under `alpha = 1/5`, `k = 3`:
the derived rows unchanged, plus the smoothed threshold trajectory. -/
def demoFinals : List FinalRow :=
  [⟨⟨0, 100, 100, 10, 0, 100, false, 0⟩, 100⟩,
   ⟨⟨1, 100, 100, 10, 0, 100, false, 0⟩, 140⟩,
   ⟨⟨2, 100, 250, 10, 150, 100, true, 1500⟩, 172⟩,
   ⟨⟨3, 100, 100, 10, 0, 100, false, 0⟩, 988/5⟩,
   ⟨⟨4, 100, 100, 10, 0, 100, false, 0⟩, 5452/25⟩]

/-- The derived series of the spec §8 scenario when run with rupture
sensitivity `a = 1` instead of `a = 0`: the threshold contracts to 0 right
after the single rupture. -/
def demoRowsA1 : List DerivedRow :=
  [⟨0, 100, 100, 10, 0, 100, false, 0⟩, ⟨1, 100, 100, 10, 0, 100, false, 0⟩,
   ⟨2, 100, 250, 10, 150, 100, true, 1500⟩, ⟨3, 100, 100, 10, 0, 0, false, 0⟩,
   ⟨4, 100, 100, 10, 0, 0, false, 0⟩]

/-- A series with decreasing dates, used to exercise the non-monotonic-dates
failure mode. -/
def badDatesSeries : List Observation := [⟨1, 0, 0, 0⟩, ⟨0, 0, 0, 0⟩]

/-- A series with a negative unit cost, used to exercise the negative-cost
failure mode. -/
def badCostSeries : List Observation := [⟨0, 0, 0, -1⟩]

/-! ### Basic facts about single-row derivation -/

theorem deriveRow_theta (theta : ℚ) (o : Observation) : (deriveRow theta o).theta = theta := rfl

theorem deriveRow_delta (theta : ℚ) (o : Observation) :
    (deriveRow theta o).delta = o.actual - o.forecast := rfl

theorem deriveRow_date (theta : ℚ) (o : Observation) : (deriveRow theta o).date = o.date := rfl

theorem deriveRow_unit_cost (theta : ℚ) (o : Observation) :
    (deriveRow theta o).unit_cost = o.unit_cost := rfl

/-- A derived row flags a rupture exactly when `|Delta| > Theta(t)`, and its
loss is `|Delta|·Unit_Cost` on rupture rows and 0 otherwise. -/
theorem deriveRow_spec (theta : ℚ) (o : Observation) :
    ((deriveRow theta o).isRupture = true ↔
      (deriveRow theta o).theta < |(deriveRow theta o).delta|) ∧
    (deriveRow theta o).loss =
      if (deriveRow theta o).theta < |(deriveRow theta o).delta|
      then |(deriveRow theta o).delta| * (deriveRow theta o).unit_cost else 0 := by
  constructor
  · simp [deriveRow]
  · rfl

theorem deriveRow_loss_zero (theta : ℚ) (o : Observation)
    (h : (deriveRow theta o).isRupture = false) : (deriveRow theta o).loss = 0 := by
  have hlt : ¬ theta < |o.actual - o.forecast| := by
    simpa [deriveRow] using h
  simp [deriveRow, hlt]

theorem nextTheta_nonneg (c a noise : ℚ) (st : RccState) : 0 ≤ nextTheta c a noise st :=
  le_max_left 0 _

/-! ### Facts about the sequential fold -/

theorem rccLoop_cons (g : ℕ → ℚ) (c a sigma : ℚ) (t : ℕ) (st : RccState)
    (o : Observation) (rest : List Observation) :
    rccLoop g c a sigma t st (o :: rest) =
      deriveRow (nextTheta c a (sigma * g t) st) o ::
        rccLoop g c a sigma (t + 1)
          ⟨nextTheta c a (sigma * g t) st,
           (deriveRow (nextTheta c a (sigma * g t) st) o).delta,
           (deriveRow (nextTheta c a (sigma * g t) st) o).isRupture⟩ rest := rfl

theorem rccLoop_length (g : ℕ → ℚ) (c a sigma : ℚ) :
    ∀ (l : List Observation) (t : ℕ) (st : RccState),
      (rccLoop g c a sigma t st l).length = l.length
  | [], _, _ => rfl
  | o :: rest, t, st => by
    rw [rccLoop_cons, List.length_cons, List.length_cons,
      rccLoop_length g c a sigma rest]

theorem rccLoop_mem (g : ℕ → ℚ) (c a sigma : ℚ) :
    ∀ (l : List Observation) (t : ℕ) (st : RccState) (r : DerivedRow),
      r ∈ rccLoop g c a sigma t st l →
      ∃ (n : ℚ) (st' : RccState) (o : Observation), r = deriveRow (nextTheta c a n st') o
  | [], _, _, _, h => absurd h (List.not_mem_nil _)
  | o :: rest, t, st, r, h => by
    rw [rccLoop_cons] at h
    rcases List.mem_cons.mp h with h1 | h2
    · exact ⟨sigma * g t, st, o, h1⟩
    · exact rccLoop_mem g c a sigma rest (t + 1) _ r h2

theorem rccLoop_map_date (g : ℕ → ℚ) (c a sigma : ℚ) :
    ∀ (l : List Observation) (t : ℕ) (st : RccState),
      (rccLoop g c a sigma t st l).map (fun r => r.date) = l.map (fun o => o.date)
  | [], _, _ => rfl
  | o :: rest, t, st => by
    rw [rccLoop_cons, List.map_cons, List.map_cons, deriveRow_date,
      rccLoop_map_date g c a sigma rest]

theorem rccLoop_get (g : ℕ → ℚ) (c a sigma : ℚ) :
    ∀ (l : List Observation) (t : ℕ) (st : RccState) (i : ℕ)
      (hi : i < (rccLoop g c a sigma t st l).length) (hl : i < l.length),
      (rccLoop g c a sigma t st l).get ⟨i, hi⟩ =
        deriveRow ((rccLoop g c a sigma t st l).get ⟨i, hi⟩).theta (l.get ⟨i, hl⟩)
  | [], _, _, i, _, hl => absurd hl (Nat.not_lt_zero i)
  | o :: rest, t, st, 0, hi, hl => rfl
  | o :: rest, t, st, i + 1, hi, hl => by
    have hi' : i < (rccLoop g c a sigma (t + 1)
        ⟨nextTheta c a (sigma * g t) st,
         (deriveRow (nextTheta c a (sigma * g t) st) o).delta,
         (deriveRow (nextTheta c a (sigma * g t) st) o).isRupture⟩ rest).length := by
      rw [rccLoop_length]
      exact Nat.lt_of_succ_lt_succ hl
    have hl' : i < rest.length := Nat.lt_of_succ_lt_succ hl
    calc (rccLoop g c a sigma t st (o :: rest)).get ⟨i + 1, hi⟩
        = (rccLoop g c a sigma (t + 1) _ rest).get ⟨i, hi'⟩ := rfl
      _ = deriveRow ((rccLoop g c a sigma (t + 1) _ rest).get ⟨i, hi'⟩).theta
            (rest.get ⟨i, hl'⟩) := rccLoop_get g c a sigma rest (t + 1) _ i hi' hl'
      _ = deriveRow ((rccLoop g c a sigma t st (o :: rest)).get ⟨i + 1, hi⟩).theta
            ((o :: rest).get ⟨i + 1, hl⟩) := rfl

theorem rccLoop_get_zero (g : ℕ → ℚ) (c a sigma : ℚ) (t : ℕ) (st : RccState)
    (o : Observation) (rest : List Observation)
    (h : 0 < (rccLoop g c a sigma t st (o :: rest)).length) :
    (rccLoop g c a sigma t st (o :: rest)).get ⟨0, h⟩ =
      deriveRow (nextTheta c a (sigma * g t) st) o := rfl

theorem rccLoop_get_succ (g : ℕ → ℚ) (c a sigma : ℚ) :
    ∀ (i : ℕ) (l : List Observation) (t : ℕ) (st : RccState)
      (h1 : i + 1 < (rccLoop g c a sigma t st l).length)
      (h2 : i < (rccLoop g c a sigma t st l).length),
      ((rccLoop g c a sigma t st l).get ⟨i + 1, h1⟩).theta =
        nextTheta c a (sigma * g (t + i + 1))
          ⟨((rccLoop g c a sigma t st l).get ⟨i, h2⟩).theta,
           ((rccLoop g c a sigma t st l).get ⟨i, h2⟩).delta,
           ((rccLoop g c a sigma t st l).get ⟨i, h2⟩).isRupture⟩
  | i, [], _, _, h1, _ => absurd h1 (by simp [rccLoop])
  | 0, o :: rest, t, st, h1, h2 => by
    have hr : 0 < rest.length := by
      have := h1
      rw [rccLoop_cons, List.length_cons, rccLoop_length] at this
      omega
    cases rest with
    | nil => exact absurd hr (by simp)
    | cons o' rest' =>
      rfl
  | i + 1, o :: rest, t, st, h1, h2 => by
    have h1' : i + 1 < (rccLoop g c a sigma (t + 1)
        ⟨nextTheta c a (sigma * g t) st,
         (deriveRow (nextTheta c a (sigma * g t) st) o).delta,
         (deriveRow (nextTheta c a (sigma * g t) st) o).isRupture⟩ rest).length := by
      have := h1
      rw [rccLoop_cons, List.length_cons] at this
      omega
    have h2' : i < (rccLoop g c a sigma (t + 1)
        ⟨nextTheta c a (sigma * g t) st,
         (deriveRow (nextTheta c a (sigma * g t) st) o).delta,
         (deriveRow (nextTheta c a (sigma * g t) st) o).isRupture⟩ rest).length := by
      omega
    have ih := rccLoop_get_succ g c a sigma i rest (t + 1)
      ⟨nextTheta c a (sigma * g t) st,
       (deriveRow (nextTheta c a (sigma * g t) st) o).delta,
       (deriveRow (nextTheta c a (sigma * g t) st) o).isRupture⟩ h1' h2'
    have harith : t + 1 + i + 1 = t + (i + 1) + 1 := by omega
    rw [harith] at ih
    exact ih

theorem rccLoop_theta_nonneg (g : ℕ → ℚ) (c a sigma : ℚ) (l : List Observation)
    (t : ℕ) (st : RccState) : ∀ r ∈ rccLoop g c a sigma t st l, 0 ≤ r.theta := by
  intro r hr
  obtain ⟨n, st', o, rfl⟩ := rccLoop_mem g c a sigma l t st r hr
  rw [deriveRow_theta]
  exact nextTheta_nonneg c a n st'

/-- With `sigma = 0` the sample stream is irrelevant: the injected noise
`sigma * g t` vanishes. -/
theorem rccLoop_sigma_zero (g g' : ℕ → ℚ) (c a : ℚ) :
    ∀ (l : List Observation) (t t' : ℕ) (st : RccState),
      rccLoop g c a 0 t st l = rccLoop g' c a 0 t' st l
  | [], _, _, _ => rfl
  | o :: rest, t, t', st => by
    rw [rccLoop_cons, rccLoop_cons, zero_mul, zero_mul,
      rccLoop_sigma_zero g g' c a rest (t + 1) (t' + 1)]

/-- Inversion for a successful `compute_rcc` call: the input was a non-empty,
date-sorted, non-negative-cost series, the first row's threshold is `Theta0`,
the remaining rows come from the fold, the rupture subset is the filtered
series and the total loss is the summed per-row loss. -/
theorem compute_rcc_ok (rng : Int → ℕ → ℚ) (series : List Observation)
    (c a Theta0 sigma : ℚ) (seed : Int) (rows rupt : List DerivedRow) (total : ℚ)
    (h : compute_rcc rng series c a Theta0 sigma seed = Except.ok (rows, rupt, total)) :
    ∃ (o : Observation) (rest : List Observation), series = o :: rest ∧
      datesSorted series = true ∧ costsOk series = true ∧
      rows = deriveRow Theta0 o ::
        rccLoop (rng seed) c a sigma 1
          ⟨(deriveRow Theta0 o).theta, (deriveRow Theta0 o).delta,
           (deriveRow Theta0 o).isRupture⟩ rest ∧
      rupt = rows.filter (fun r => r.isRupture) ∧
      total = (rows.map (fun r => r.loss)).sum := by
  cases series with
  | nil => exact absurd h (by simp [compute_rcc])
  | cons o rest =>
    rw [compute_rcc] at h
    by_cases h1 : datesSorted (o :: rest) = true
    · by_cases h2 : costsOk (o :: rest) = true
      · rw [if_pos h1, if_pos h2] at h
        injection h with h'
        simp only [Prod.mk.injEq] at h'
        obtain ⟨hr, hru, ht⟩ := h'
        refine ⟨o, rest, rfl, h1, h2, hr.symm, ?_, ?_⟩
        · rw [← hru, ← hr]
        · rw [← ht, ← hr]
      · rw [if_pos h1, if_neg h2] at h
        exact absurd h (by simp)
    · rw [if_neg h1] at h
      exact absurd h (by simp)

/-! ### Facts about the adaptive smoother -/

/-- Inversion for a successful `compute_ewma_threshold` call: `alpha` was in
(0,1), the input series was non-empty, the first smoothed value is the first
observed threshold and the rest come from the EWMA recursion. -/
theorem compute_ewma_ok (rows : List DerivedRow) (alpha k : ℚ) (finals : List FinalRow)
    (h : compute_ewma_threshold rows alpha k = Except.ok finals) :
    (0 < alpha ∧ alpha < 1) ∧
    ∃ (r : DerivedRow) (rest : List DerivedRow), rows = r :: rest ∧
      finals = ⟨r, r.theta⟩ :: ewmaLoop alpha k r.theta rest := by
  rw [compute_ewma_threshold.eq_def] at h
  by_cases ha : 0 < alpha ∧ alpha < 1
  · rw [if_pos ha] at h
    cases rows with
    | nil => exact absurd h (by simp)
    | cons r rest =>
      injection h with h'
      exact ⟨ha, r, rest, rfl, h'.symm⟩
  · rw [if_neg ha] at h
    exact absurd h (by simp)

theorem ewmaLoop_map_base (alpha k : ℚ) :
    ∀ (l : List DerivedRow) (prev : ℚ),
      (ewmaLoop alpha k prev l).map (fun f => f.base) = l
  | [], _ => rfl
  | r :: rest, prev => by
    rw [ewmaLoop, List.map_cons, ewmaLoop_map_base alpha k rest]

theorem ewmaLoop_nonneg (alpha k : ℚ) (h0 : 0 ≤ alpha) (h1 : alpha ≤ 1) (hk : 0 ≤ k) :
    ∀ (l : List DerivedRow) (prev : ℚ), 0 ≤ prev → (∀ r ∈ l, 0 ≤ r.theta) →
      ∀ f ∈ ewmaLoop alpha k prev l, 0 ≤ f.theta_ewma
  | [], _, _, _, _, hf => absurd hf (List.not_mem_nil _)
  | r :: rest, prev, hprev, hl, f, hf => by
    have hθ : 0 ≤ r.theta := hl r (List.mem_cons_self r rest)
    have hx : 0 ≤ alpha * (k * r.theta) + (1 - alpha) * prev := by
      have t1 : 0 ≤ alpha * (k * r.theta) := mul_nonneg h0 (mul_nonneg hk hθ)
      have t2 : 0 ≤ (1 - alpha) * prev := mul_nonneg (by linarith) hprev
      linarith
    rw [ewmaLoop] at hf
    rcases List.mem_cons.mp hf with heq | hmem
    · rw [heq]
      exact hx
    · exact ewmaLoop_nonneg alpha k h0 h1 hk rest _ hx
        (fun r' hr' => hl r' (List.mem_cons_of_mem r hr')) f hmem

/-! ### Summation of losses -/

theorem sum_map_filter_eq (p : DerivedRow → Bool) (f : DerivedRow → ℚ) :
    ∀ (l : List DerivedRow), (∀ r ∈ l, p r = false → f r = 0) →
      (((l.filter p).map f).sum : ℚ) = ((l.map f).sum : ℚ)
  | [], _ => rfl
  | r :: rest, h => by
    have ih := sum_map_filter_eq p f rest
      (fun r' hr' => h r' (List.mem_cons_of_mem r hr'))
    by_cases hp : p r = true
    · rw [List.filter_cons_of_pos hp, List.map_cons, List.map_cons,
        List.sum_cons, List.sum_cons, ih]
    · have hzero : f r = 0 := h r (List.mem_cons_self r rest)
        (Bool.not_eq_true (p r) ▸ hp)
      rw [List.filter_cons_of_neg (by simpa using hp), List.map_cons,
        List.sum_cons, ih, hzero, zero_add]

/-! ### Monotone rupture sensitivity -/

/-- With a higher rupture sensitivity (within the documented range [0,1]) and a
lower current threshold, the updated threshold stays lower, provided a rupture
under the higher-threshold run implies one under the lower-threshold run. -/
theorem nextTheta_mono (c n a1 a2 : ℚ) (st1 st2 : RccState)
    (ha2 : 0 ≤ a2) (ha12 : a1 ≤ a2) (ha21 : a2 ≤ 1)
    (hT2 : 0 ≤ st2.prevTheta) (hTT : st2.prevTheta ≤ st1.prevTheta)
    (hD : st2.prevDelta = st1.prevDelta)
    (hb : st1.prevRupture = true → st2.prevRupture = true) :
    nextTheta c a2 n st2 ≤ nextTheta c a1 n st1 := by
  rw [nextTheta, nextTheta, hD]
  refine max_le_max (le_refl 0) ?_
  rcases hb1 : st1.prevRupture with _ | _
  · rcases hb2 : st2.prevRupture with _ | _
    · rw [if_neg (by simp), mul_zero, mul_zero, sub_zero, sub_zero]
      linarith
    · rw [if_pos rfl, if_neg (by simp), mul_one, mul_zero, sub_zero]
      have hz : 0 ≤ a2 * st2.prevTheta := mul_nonneg ha2 hT2
      linarith
  · have hb2 : st2.prevRupture = true := hb hb1
    rw [hb2, if_pos rfl, mul_one, mul_one]
    have h1 : (1 - a2) * st2.prevTheta ≤ (1 - a1) * st2.prevTheta :=
      mul_le_mul_of_nonneg_right (by linarith) hT2
    have h2 : (1 - a1) * st2.prevTheta ≤ (1 - a1) * st1.prevTheta :=
      mul_le_mul_of_nonneg_left hTT (by linarith)
    nlinarith

/-- Pointwise comparison of two runs of the fold that differ only in the
rupture sensitivity: the higher-sensitivity run has pointwise lower thresholds
and at least the same rupture flags. -/
theorem rccLoop_mono (g : ℕ → ℚ) (c sigma a1 a2 : ℚ)
    (ha2 : 0 ≤ a2) (ha12 : a1 ≤ a2) (ha21 : a2 ≤ 1) :
    ∀ (l : List Observation) (t : ℕ) (st1 st2 : RccState),
      0 ≤ st2.prevTheta → st2.prevTheta ≤ st1.prevTheta →
      st2.prevDelta = st1.prevDelta →
      (st1.prevRupture = true → st2.prevRupture = true) →
      List.Forall₂ (fun r1 r2 => r2.theta ≤ r1.theta ∧
          (r1.isRupture = true → r2.isRupture = true))
        (rccLoop g c a1 sigma t st1 l) (rccLoop g c a2 sigma t st2 l)
  | [], _, _, _, _, _, _, _ => List.Forall₂.nil
  | o :: rest, t, st1, st2, hT2, hTT, hD, hb => by
    rw [rccLoop_cons, rccLoop_cons]
    have hθ : nextTheta c a2 (sigma * g t) st2 ≤ nextTheta c a1 (sigma * g t) st1 :=
      nextTheta_mono c (sigma * g t) a1 a2 st1 st2 ha2 ha12 ha21 hT2 hTT hD hb
    have hrupt : (deriveRow (nextTheta c a1 (sigma * g t) st1) o).isRupture = true →
        (deriveRow (nextTheta c a2 (sigma * g t) st2) o).isRupture = true := by
      simp only [deriveRow, decide_eq_true_eq]
      intro h
      exact lt_of_le_of_lt hθ h
    refine List.Forall₂.cons ⟨hθ, hrupt⟩ ?_
    exact rccLoop_mono g c sigma a1 a2 ha2 ha12 ha21 rest (t + 1) _ _
      (nextTheta_nonneg c a2 (sigma * g t) st2) hθ rfl hrupt

/-- Counting rupture rows is monotone under a pointwise implication of the
rupture flags. -/
theorem filter_length_le_of_forall2 (p : DerivedRow → Bool) :
    ∀ (l1 l2 : List DerivedRow),
      List.Forall₂ (fun r1 r2 => p r1 = true → p r2 = true) l1 l2 →
      (l1.filter p).length ≤ (l2.filter p).length
  | [], [], _ => le_refl 0
  | r1 :: rest1, r2 :: rest2, h => by
    rcases h with _ | ⟨hr, hrest⟩
    have ih := filter_length_le_of_forall2 p rest1 rest2 hrest
    by_cases hp : p r1 = true
    · rw [List.filter_cons_of_pos hp, List.filter_cons_of_pos (hr hp),
        List.length_cons, List.length_cons]
      omega
    · rw [List.filter_cons_of_neg (by simpa using hp)]
      by_cases hp2 : p r2 = true
      · rw [List.filter_cons_of_pos hp2, List.length_cons]
        omega
      · rw [List.filter_cons_of_neg (by simpa using hp2)]
        exact ih

/-! ### Option-indexed access to the fold's output -/

theorem rccLoop_getElem (g : ℕ → ℚ) (c a sigma : ℚ) :
    ∀ (l : List Observation) (t : ℕ) (st : RccState) (i : ℕ) (r : DerivedRow),
      (rccLoop g c a sigma t st l)[i]? = some r →
      ∃ (s : Observation), l[i]? = some s ∧ r = deriveRow r.theta s
  | [], _, _, i, r, h => by simp [rccLoop] at h
  | o :: rest, t, st, 0, r, h => by
    rw [rccLoop_cons] at h
    simp only [List.getElem?_cons_zero, Option.some.injEq] at h
    exact ⟨o, by simp, by rw [← h, deriveRow_theta]⟩
  | o :: rest, t, st, i + 1, r, h => by
    rw [rccLoop_cons] at h
    simp only [List.getElem?_cons_succ] at h
    obtain ⟨s, hs, hr⟩ := rccLoop_getElem g c a sigma rest (t + 1) _ i r h
    exact ⟨s, by simpa using hs, hr⟩

theorem rccLoop_head_theta (g : ℕ → ℚ) (c a sigma : ℚ) (l : List Observation)
    (t : ℕ) (st : RccState) (r : DerivedRow)
    (h : (rccLoop g c a sigma t st l)[0]? = some r) :
    r.theta = nextTheta c a (sigma * g t) st := by
  cases l with
  | nil => simp [rccLoop] at h
  | cons o rest =>
    rw [rccLoop_cons] at h
    simp only [List.getElem?_cons_zero, Option.some.injEq] at h
    rw [← h, deriveRow_theta]

theorem rccLoop_adjacent (g : ℕ → ℚ) (c a sigma : ℚ) :
    ∀ (l : List Observation) (t : ℕ) (st : RccState) (i : ℕ) (p q : DerivedRow),
      (rccLoop g c a sigma t st l)[i]? = some p →
      (rccLoop g c a sigma t st l)[i + 1]? = some q →
      q.theta = nextTheta c a (sigma * g (t + i + 1)) ⟨p.theta, p.delta, p.isRupture⟩
  | [], _, _, i, p, q, hp, _ => by simp [rccLoop] at hp
  | o :: rest, t, st, 0, p, q, hp, hq => by
    rw [rccLoop_cons] at hp hq
    simp only [List.getElem?_cons_zero, Option.some.injEq] at hp
    simp only [List.getElem?_cons_succ] at hq
    have hhead := rccLoop_head_theta g c a sigma rest (t + 1) _ q hq
    rw [hhead, ← hp, deriveRow_theta, deriveRow_delta]
  | o :: rest, t, st, i + 1, p, q, hp, hq => by
    rw [rccLoop_cons] at hp hq
    simp only [List.getElem?_cons_succ] at hp hq
    have ih := rccLoop_adjacent g c a sigma rest (t + 1) _ i p q hp hq
    have harith : t + 1 + i + 1 = t + (i + 1) + 1 := by omega
    rw [harith] at ih
    exact ih

/-! ### The claims -/

/-- C1: on every successful `compute_rcc` run, each row satisfies
`Delta = Actual − Forecast` with the row's `Unit_Cost` carried over from the
input; the threshold of the first row equals `Theta0`; each later row's
threshold equals
`max(0, Theta_prev + c·Delta_prev + noise − a·Theta_prev·[rupture at prev])`
with `noise = sigma` times the seeded generator's sample for that step;
`IsRupture` holds iff `|Delta| > Theta`; and `Loss = |Delta|·Unit_Cost` on
rupture rows and 0 otherwise. -/
theorem claim_C1 (rng : Int → ℕ → ℚ) (series : List Observation)
    (c a Theta0 sigma : ℚ) (seed : Int) (rows rupt : List DerivedRow) (total : ℚ)
    (h : compute_rcc rng series c a Theta0 sigma seed = Except.ok (rows, rupt, total)) :
    (∀ (i : ℕ) (r : DerivedRow) (s : Observation),
        rows[i]? = some r → series[i]? = some s →
        r.delta = s.actual - s.forecast ∧ r.unit_cost = s.unit_cost) ∧
    (∀ r : DerivedRow, rows[0]? = some r → r.theta = Theta0) ∧
    (∀ (i : ℕ) (p q : DerivedRow), rows[i]? = some p → rows[i + 1]? = some q →
        q.theta = max 0 (p.theta + c * p.delta + sigma * rng seed (i + 1)
          - a * p.theta * (if p.isRupture then 1 else 0))) ∧
    (∀ r ∈ rows, (r.isRupture = true ↔ r.theta < |r.delta|) ∧
        r.loss = if r.theta < |r.delta| then |r.delta| * r.unit_cost else 0) := by
  obtain ⟨o, rest, hs, hd, hc2, hrows, hru, hto⟩ :=
    compute_rcc_ok rng series c a Theta0 sigma seed rows rupt total h
  subst hs
  subst hrows
  refine ⟨?_, ?_, ?_, ?_⟩
  · intro i r s hr hs'
    cases i with
    | zero =>
      simp only [List.getElem?_cons_zero, Option.some.injEq] at hr hs'
      subst hr
      subst hs'
      exact ⟨rfl, rfl⟩
    | succ j =>
      simp only [List.getElem?_cons_succ] at hr hs'
      obtain ⟨s', hs'', hshape⟩ :=
        rccLoop_getElem (rng seed) c a sigma rest 1 _ j r hr
      rw [hs'] at hs''
      injection hs'' with he
      subst he
      exact ⟨by rw [hshape, deriveRow_delta], by rw [hshape, deriveRow_unit_cost]⟩
  · intro r hr
    simp only [List.getElem?_cons_zero, Option.some.injEq] at hr
    rw [← hr, deriveRow_theta]
  · intro i p q hp hq
    cases i with
    | zero =>
      simp only [List.getElem?_cons_zero, Option.some.injEq] at hp
      simp only [List.getElem?_cons_succ] at hq
      have hhead := rccLoop_head_theta (rng seed) c a sigma rest 1 _ q hq
      rw [← hp]
      exact hhead
    | succ j =>
      simp only [List.getElem?_cons_succ] at hp hq
      have hadj := rccLoop_adjacent (rng seed) c a sigma rest 1 _ j p q hp hq
      rw [show (1 : ℕ) + j + 1 = j + 1 + 1 from by omega] at hadj
      exact hadj
  · intro r hr
    rcases List.mem_cons.mp hr with h1 | h2
    · subst h1
      exact deriveRow_spec Theta0 o
    · obtain ⟨n, st', o', hshape⟩ := rccLoop_mem (rng seed) c a sigma rest 1 _ r h2
      subst hshape
      exact deriveRow_spec _ o'

/-- Evaluation of the spec §8 scenario: the engine returns exactly the
expected derived series, rupture subset and total loss. -/
theorem demo_rcc_eq :
    compute_rcc demoRng demoSeries 0 0 100 0 1 = Except.ok (demoRows, demoRupt, 1500) := by
  norm_num [compute_rcc, demoSeries, demoRng, demoRows, demoRupt, rccLoop, deriveRow,
    nextTheta, datesSorted, costsOk, List.filter, List.map, List.sum]

/-- Evaluation of the spec §8 scenario with rupture sensitivity `a = 1`. -/
theorem demo_rcc_a1_eq :
    compute_rcc demoRng demoSeries 0 1 100 0 1 = Except.ok (demoRowsA1, demoRupt, 1500) := by
  norm_num [compute_rcc, demoSeries, demoRng, demoRowsA1, demoRupt, rccLoop, deriveRow,
    nextTheta, datesSorted, costsOk, List.filter, List.map, List.sum]

/-- Evaluation of the smoother on the spec §8 scenario's derived series. -/
theorem demo_ewma_eq :
    compute_ewma_threshold demoRows (1/5) 3 = Except.ok demoFinals := by
  rw [compute_ewma_threshold.eq_def]
  norm_num [demoRows, demoFinals, ewmaLoop]

/-- With `sigma = 0` the engine's output does not depend on the generator or
the seed at all. -/
theorem compute_rcc_sigma_zero (rng rng' : Int → ℕ → ℚ) (series : List Observation)
    (c a Theta0 : ℚ) (seed seed' : Int) :
    compute_rcc rng series c a Theta0 0 seed = compute_rcc rng' series c a Theta0 0 seed' := by
  cases series with
  | nil => rfl
  | cons o rest =>
    simp only [compute_rcc]
    rw [rccLoop_sigma_zero (rng seed) (rng' seed') c a rest 1 1]

/-- Witness for C1: the recurrence clauses hold concretely on the spec §8
scenario. -/
theorem claim_C1_witness :
    compute_rcc demoRng demoSeries 0 0 100 0 1 = Except.ok (demoRows, demoRupt, 1500) ∧
    ((∀ (i : ℕ) (r : DerivedRow) (s : Observation),
        demoRows[i]? = some r → demoSeries[i]? = some s →
        r.delta = s.actual - s.forecast ∧ r.unit_cost = s.unit_cost) ∧
     (∀ r : DerivedRow, demoRows[0]? = some r → r.theta = 100) ∧
     (∀ (i : ℕ) (p q : DerivedRow), demoRows[i]? = some p → demoRows[i + 1]? = some q →
        q.theta = max 0 (p.theta + 0 * p.delta + 0 * demoRng 1 (i + 1)
          - 0 * p.theta * (if p.isRupture then 1 else 0))) ∧
     (∀ r ∈ demoRows, (r.isRupture = true ↔ r.theta < |r.delta|) ∧
        r.loss = if r.theta < |r.delta| then |r.delta| * r.unit_cost else 0)) :=
  ⟨demo_rcc_eq, claim_C1 demoRng demoSeries 0 0 100 0 1 demoRows demoRupt 1500 demo_rcc_eq⟩

/-- C2: on the spec §8 scenario (`Theta0 = 100`, `c = a = sigma = 0`,
`seed = 1`) the engine returns `Delta = [0,0,150,0,0]`, constant threshold 100,
`IsRupture = [F,F,T,F,F]`, `Loss = [0,0,1500,0,0]` and `TotalLoss = 1500`,
whatever the underlying sample stream. -/
theorem claim_C2 (rng : Int → ℕ → ℚ) :
    compute_rcc rng demoSeries 0 0 100 0 1 = Except.ok (demoRows, demoRupt, 1500) :=
  (compute_rcc_sigma_zero rng demoRng demoSeries 0 0 100 1 1).trans demo_rcc_eq

/-- C3: on every successful `compute_rcc` run, `TotalLoss` equals the summed
loss of the rupture subset, which equals the summed loss of the whole derived
series, and every non-rupture row has zero loss. -/
theorem claim_C3 (rng : Int → ℕ → ℚ) (series : List Observation)
    (c a Theta0 sigma : ℚ) (seed : Int) (rows rupt : List DerivedRow) (total : ℚ)
    (h : compute_rcc rng series c a Theta0 sigma seed = Except.ok (rows, rupt, total)) :
    total = (rupt.map (fun r => r.loss)).sum ∧
    total = (rows.map (fun r => r.loss)).sum ∧
    ∀ r ∈ rows, r.isRupture = false → r.loss = 0 := by
  obtain ⟨o, rest, hs, hd, hc2, hrows, hru, hto⟩ :=
    compute_rcc_ok rng series c a Theta0 sigma seed rows rupt total h
  subst hs
  subst hrows
  subst hru
  subst hto
  have hzero : ∀ r ∈ deriveRow Theta0 o ::
      rccLoop (rng seed) c a sigma 1
        ⟨(deriveRow Theta0 o).theta, (deriveRow Theta0 o).delta,
         (deriveRow Theta0 o).isRupture⟩ rest,
      r.isRupture = false → r.loss = 0 := by
    intro r hr hfalse
    rcases List.mem_cons.mp hr with h1 | h2
    · subst h1
      exact deriveRow_loss_zero Theta0 o hfalse
    · obtain ⟨n, st', o', hshape⟩ := rccLoop_mem (rng seed) c a sigma rest 1 _ r h2
      subst hshape
      exact deriveRow_loss_zero _ o' hfalse
  refine ⟨?_, rfl, hzero⟩
  exact (sum_map_filter_eq (fun r => r.isRupture) (fun r => r.loss) _ hzero).symm

/-- Witness for C3: the loss-accounting identities hold concretely on the
spec §8 scenario. -/
theorem claim_C3_witness :
    compute_rcc demoRng demoSeries 0 0 100 0 1 = Except.ok (demoRows, demoRupt, 1500) ∧
    ((1500 : ℚ) = (demoRupt.map (fun r => r.loss)).sum ∧
     (1500 : ℚ) = (demoRows.map (fun r => r.loss)).sum ∧
     ∀ r ∈ demoRows, r.isRupture = false → r.loss = 0) :=
  ⟨demo_rcc_eq, claim_C3 demoRng demoSeries 0 0 100 0 1 demoRows demoRupt 1500 demo_rcc_eq⟩

/-- C4: under the documented parameter ranges (`c, a ∈ [0,1]`, `Theta0 ≥ 0`,
`sigma ≥ 0`, `alpha ∈ (0,1)`, `k ≥ 1`), every threshold produced by
`compute_rcc` and every smoothed threshold produced by
`compute_ewma_threshold` is non-negative. -/
theorem claim_C4 (rng : Int → ℕ → ℚ) (series : List Observation)
    (c a Theta0 sigma : ℚ) (seed : Int) (rows rupt : List DerivedRow) (total : ℚ)
    (alpha k : ℚ)
    (hc0 : 0 ≤ c) (hc1 : c ≤ 1) (ha0 : 0 ≤ a) (ha1 : a ≤ 1)
    (hT : 0 ≤ Theta0) (hsig : 0 ≤ sigma)
    (hal0 : 0 < alpha) (hal1 : alpha < 1) (hk : 1 ≤ k)
    (h : compute_rcc rng series c a Theta0 sigma seed = Except.ok (rows, rupt, total)) :
    (∀ r ∈ rows, 0 ≤ r.theta) ∧
    (∀ finals : List FinalRow, compute_ewma_threshold rows alpha k = Except.ok finals →
      ∀ f ∈ finals, 0 ≤ f.theta_ewma) := by
  obtain ⟨o, rest, hs, hd, hc2, hrows, hru, hto⟩ :=
    compute_rcc_ok rng series c a Theta0 sigma seed rows rupt total h
  subst hs
  subst hrows
  have hθ : ∀ r ∈ deriveRow Theta0 o ::
      rccLoop (rng seed) c a sigma 1
        ⟨(deriveRow Theta0 o).theta, (deriveRow Theta0 o).delta,
         (deriveRow Theta0 o).isRupture⟩ rest, 0 ≤ r.theta := by
    intro r hr
    rcases List.mem_cons.mp hr with h1 | h2
    · subst h1
      rw [deriveRow_theta]
      exact hT
    · exact rccLoop_theta_nonneg (rng seed) c a sigma rest 1 _ r h2
  refine ⟨hθ, ?_⟩
  intro finals hf
  obtain ⟨⟨-, -⟩, r, rest', hrows', hfinals⟩ := compute_ewma_ok _ alpha k finals hf
  injection hrows' with he1 he2
  subst hfinals
  intro f hfm
  rcases List.mem_cons.mp hfm with h1 | h2
  · subst h1
    show 0 ≤ r.theta
    rw [← he1, deriveRow_theta]
    exact hT
  · refine ewmaLoop_nonneg alpha k (le_of_lt hal0) (le_of_lt hal1)
      (le_trans zero_le_one hk) rest' r.theta ?_ ?_ f h2
    · rw [← he1, deriveRow_theta]
      exact hT
    · intro r' hr'
      refine hθ r' ?_
      rw [← he2] at hr'
      exact List.mem_cons_of_mem _ hr'

/-- Witness for C4: non-negativity of both threshold columns holds concretely
on the spec §8 scenario with `alpha = 1/5`, `k = 3`. -/
theorem claim_C4_witness :
    ((0 : ℚ) ≤ 0 ∧ (0 : ℚ) ≤ 1 ∧ (0 : ℚ) ≤ 100 ∧ (0 : ℚ) < 1/5 ∧ (1/5 : ℚ) < 1 ∧
      (1 : ℚ) ≤ 3 ∧
      compute_rcc demoRng demoSeries 0 0 100 0 1 = Except.ok (demoRows, demoRupt, 1500)) ∧
    ((∀ r ∈ demoRows, 0 ≤ r.theta) ∧
     (∀ finals : List FinalRow,
        compute_ewma_threshold demoRows (1/5) 3 = Except.ok finals →
        ∀ f ∈ finals, 0 ≤ f.theta_ewma)) :=
  ⟨⟨le_refl 0, by norm_num, by norm_num, by norm_num, by norm_num, by norm_num, demo_rcc_eq⟩,
   claim_C4 demoRng demoSeries 0 0 100 0 1 demoRows demoRupt 1500 (1/5) 3
     (le_refl 0) (by norm_num) (le_refl 0) (by norm_num) (by norm_num) (le_refl 0)
     (by norm_num) (by norm_num) (by norm_num) demo_rcc_eq⟩

/-- C5: the engine is deterministic given a seed: two calls with the same
series, parameters and seed return the same full output (hence the same
threshold trajectory and the same rupture subset). -/
theorem claim_C5 (rng : Int → ℕ → ℚ) (s1 s2 : List Observation)
    (c1 c2 a1 a2 T1 T2 sig1 sig2 : ℚ) (seed1 seed2 : Int)
    (hs : s1 = s2) (hc : c1 = c2) (ha : a1 = a2) (hT : T1 = T2)
    (hsig : sig1 = sig2) (hseed : seed1 = seed2) :
    compute_rcc rng s1 c1 a1 T1 sig1 seed1 = compute_rcc rng s2 c2 a2 T2 sig2 seed2 := by
  subst hs
  subst hc
  subst ha
  subst hT
  subst hsig
  subst hseed
  rfl

/-- Witness for C5: determinism instantiated on the spec §8 scenario. -/
theorem claim_C5_witness :
    demoSeries = demoSeries ∧ (0 : ℚ) = 0 ∧ (100 : ℚ) = 100 ∧ (1 : Int) = 1 ∧
    compute_rcc demoRng demoSeries 0 0 100 0 1 = compute_rcc demoRng demoSeries 0 0 100 0 1 :=
  ⟨rfl, rfl, rfl, rfl,
   claim_C5 demoRng demoSeries demoSeries 0 0 0 0 100 100 0 0 1 1 rfl rfl rfl rfl rfl rfl⟩

/-- C6: the smoother is purely additive: stripping the new `Theta_EWMA` column
off its output returns the input derived series unchanged — in particular no
row's `Delta`, `Theta(t)`, `IsRupture` or `Loss` is altered. -/
theorem claim_C6 (rows : List DerivedRow) (alpha k : ℚ) (finals : List FinalRow)
    (h : compute_ewma_threshold rows alpha k = Except.ok finals) :
    finals.map (fun f => f.base) = rows ∧
    (∀ (i : ℕ) (f : FinalRow) (r : DerivedRow),
      finals[i]? = some f → rows[i]? = some r →
      f.base.delta = r.delta ∧ f.base.theta = r.theta ∧
      f.base.isRupture = r.isRupture ∧ f.base.loss = r.loss) := by
  obtain ⟨-, r, rest, hrows, hfinals⟩ := compute_ewma_ok rows alpha k finals h
  subst hrows
  subst hfinals
  have hmap : (({ base := r, theta_ewma := r.theta } ::
      ewmaLoop alpha k r.theta rest : List FinalRow)).map (fun f => f.base) = r :: rest := by
    rw [List.map_cons, ewmaLoop_map_base]
  refine ⟨hmap, ?_⟩
  intro i f rr hf hr
  have hbase : ((({ base := r, theta_ewma := r.theta } ::
      ewmaLoop alpha k r.theta rest : List FinalRow)).map (fun f => f.base))[i]? =
      some f.base := by
    rw [List.getElem?_map, hf]
    rfl
  rw [hmap, hr] at hbase
  injection hbase with he
  rw [he]
  exact ⟨rfl, rfl, rfl, rfl⟩

/-- Witness for C6: the frame property instantiated on the spec §8 scenario's
derived series. -/
theorem claim_C6_witness :
    compute_ewma_threshold demoRows (1/5) 3 = Except.ok demoFinals ∧
    (demoFinals.map (fun f => f.base) = demoRows ∧
     (∀ (i : ℕ) (f : FinalRow) (r : DerivedRow),
        demoFinals[i]? = some f → demoRows[i]? = some r →
        f.base.delta = r.delta ∧ f.base.theta = r.theta ∧
        f.base.isRupture = r.isRupture ∧ f.base.loss = r.loss)) :=
  ⟨demo_ewma_eq, claim_C6 demoRows (1/5) 3 demoFinals demo_ewma_eq⟩

/-- C7: both stages preserve the number of rows and the input date order:
the derived series and the final series have exactly as many rows as the
input, with identical date sequences. -/
theorem claim_C7 (rng : Int → ℕ → ℚ) (series : List Observation)
    (c a Theta0 sigma : ℚ) (seed : Int) (rows rupt : List DerivedRow) (total : ℚ)
    (h : compute_rcc rng series c a Theta0 sigma seed = Except.ok (rows, rupt, total)) :
    rows.length = series.length ∧
    rows.map (fun r => r.date) = series.map (fun o => o.date) ∧
    (∀ (alpha k : ℚ) (finals : List FinalRow),
      compute_ewma_threshold rows alpha k = Except.ok finals →
      finals.length = series.length ∧
      finals.map (fun f => f.base.date) = series.map (fun o => o.date)) := by
  obtain ⟨o, rest, hs, hd, hc2, hrows, -, -⟩ :=
    compute_rcc_ok rng series c a Theta0 sigma seed rows rupt total h
  subst hs
  subst hrows
  have hdates : (deriveRow Theta0 o ::
      rccLoop (rng seed) c a sigma 1
        ⟨(deriveRow Theta0 o).theta, (deriveRow Theta0 o).delta,
         (deriveRow Theta0 o).isRupture⟩ rest).map (fun r => r.date) =
      (o :: rest).map (fun s => s.date) := by
    rw [List.map_cons, List.map_cons, deriveRow_date, rccLoop_map_date]
  have hlen : (deriveRow Theta0 o ::
      rccLoop (rng seed) c a sigma 1
        ⟨(deriveRow Theta0 o).theta, (deriveRow Theta0 o).delta,
         (deriveRow Theta0 o).isRupture⟩ rest).length = (o :: rest).length := by
    rw [List.length_cons, List.length_cons, rccLoop_length]
  refine ⟨hlen, hdates, ?_⟩
  intro alpha k finals hf
  obtain ⟨-, r, rest', hrows', hfinals⟩ := compute_ewma_ok _ alpha k finals hf
  have hbase : finals.map (fun f => f.base) = r :: rest' := by
    rw [hfinals, List.map_cons, ewmaLoop_map_base]
  rw [← hrows'] at hbase
  constructor
  · have := congrArg List.length hbase
    rw [List.length_map] at this
    rw [this, hlen]
  · have hcomp : finals.map (fun f => f.base.date) =
        (finals.map (fun f => f.base)).map (fun r => r.date) := by
      rw [List.map_map]
      rfl
    rw [hcomp, hbase, hdates]

/-- Witness for C7: row count and date order are preserved concretely on the
spec §8 scenario, through both stages. -/
theorem claim_C7_witness :
    compute_rcc demoRng demoSeries 0 0 100 0 1 = Except.ok (demoRows, demoRupt, 1500) ∧
    (demoRows.length = demoSeries.length ∧
     demoRows.map (fun r => r.date) = demoSeries.map (fun o => o.date) ∧
     (∀ (alpha k : ℚ) (finals : List FinalRow),
        compute_ewma_threshold demoRows alpha k = Except.ok finals →
        finals.length = demoSeries.length ∧
        finals.map (fun f => f.base.date) = demoSeries.map (fun o => o.date))) :=
  ⟨demo_rcc_eq, claim_C7 demoRng demoSeries 0 0 100 0 1 demoRows demoRupt 1500 demo_rcc_eq⟩

/-- C8: `compute_rcc` fails with a distinct `InvalidInputError` for an empty
series, for non-monotonic dates and for a negative unit cost, returning no
partial results; `compute_ewma_threshold` raises `InvalidParameterError` for
`alpha` outside (0,1) before any row processing, and also fails on an empty
derived series. -/
theorem claim_C8 (rng : Int → ℕ → ℚ) (c a Theta0 sigma : ℚ) (seed : Int)
    (s1 s2 : List Observation) (rows : List DerivedRow) (alpha1 alpha2 k : ℚ)
    (h1 : s1 ≠ []) (h2 : datesSorted s1 = false)
    (h3 : s2 ≠ []) (h4 : datesSorted s2 = true) (h5 : costsOk s2 = false)
    (h6 : ¬(0 < alpha1 ∧ alpha1 < 1)) (h7 : 0 < alpha2 ∧ alpha2 < 1) :
    compute_rcc rng [] c a Theta0 sigma seed =
      Except.error (RccError.invalidInput InputFault.emptySeries) ∧
    compute_rcc rng s1 c a Theta0 sigma seed =
      Except.error (RccError.invalidInput InputFault.nonMonotonicDates) ∧
    compute_rcc rng s2 c a Theta0 sigma seed =
      Except.error (RccError.invalidInput InputFault.negativeUnitCost) ∧
    (RccError.invalidInput InputFault.emptySeries ≠
      RccError.invalidInput InputFault.nonMonotonicDates ∧
     RccError.invalidInput InputFault.emptySeries ≠
      RccError.invalidInput InputFault.negativeUnitCost ∧
     RccError.invalidInput InputFault.nonMonotonicDates ≠
      RccError.invalidInput InputFault.negativeUnitCost) ∧
    compute_ewma_threshold rows alpha1 k =
      Except.error (RccError.invalidParameter ParamFault.alphaOutOfRange) ∧
    compute_ewma_threshold [] alpha2 k =
      Except.error (RccError.invalidInput InputFault.emptySeries) := by
  refine ⟨rfl, ?_, ?_, ⟨by simp, by simp, by simp⟩, ?_, ?_⟩
  · cases s1 with
    | nil => exact absurd rfl h1
    | cons o rest =>
      rw [compute_rcc, if_neg (by simp [h2])]
  · cases s2 with
    | nil => exact absurd rfl h3
    | cons o rest =>
      rw [compute_rcc, if_pos h4, if_neg (by simp [h5])]
  · rw [compute_ewma_threshold.eq_def, if_neg h6]
  · rw [compute_ewma_threshold.eq_def, if_pos h7]

/-- Witness for C8: the failure modes exercised on concrete bad inputs. -/
theorem claim_C8_witness :
    (badDatesSeries ≠ [] ∧ datesSorted badDatesSeries = false ∧
     badCostSeries ≠ [] ∧ datesSorted badCostSeries = true ∧
     costsOk badCostSeries = false ∧
     ¬((0 : ℚ) < 2 ∧ (2 : ℚ) < 1) ∧ ((0 : ℚ) < 1/5 ∧ (1/5 : ℚ) < 1)) ∧
    (compute_rcc demoRng [] 0 0 100 0 1 =
      Except.error (RccError.invalidInput InputFault.emptySeries) ∧
     compute_rcc demoRng badDatesSeries 0 0 100 0 1 =
      Except.error (RccError.invalidInput InputFault.nonMonotonicDates) ∧
     compute_rcc demoRng badCostSeries 0 0 100 0 1 =
      Except.error (RccError.invalidInput InputFault.negativeUnitCost) ∧
     (RccError.invalidInput InputFault.emptySeries ≠
       RccError.invalidInput InputFault.nonMonotonicDates ∧
      RccError.invalidInput InputFault.emptySeries ≠
       RccError.invalidInput InputFault.negativeUnitCost ∧
      RccError.invalidInput InputFault.nonMonotonicDates ≠
       RccError.invalidInput InputFault.negativeUnitCost) ∧
     compute_ewma_threshold demoRows 2 3 =
      Except.error (RccError.invalidParameter ParamFault.alphaOutOfRange) ∧
     compute_ewma_threshold [] (1/5) 3 =
      Except.error (RccError.invalidInput InputFault.emptySeries)) :=
  ⟨⟨by simp [badDatesSeries], by norm_num [datesSorted, badDatesSeries],
    by simp [badCostSeries], by norm_num [datesSorted, badCostSeries],
    by norm_num [costsOk, badCostSeries], by norm_num, by norm_num⟩,
   claim_C8 demoRng 0 0 100 0 1 badDatesSeries badCostSeries demoRows 2 (1/5) 3
     (by simp [badDatesSeries]) (by norm_num [datesSorted, badDatesSeries])
     (by simp [badCostSeries]) (by norm_num [datesSorted, badCostSeries])
     (by norm_num [costsOk, badCostSeries]) (by norm_num) (by norm_num)⟩

/-- C9: with all other inputs, parameters and the seed fixed, and the rupture
sensitivity within its documented range, raising it from `a1` to `a2 > a1`
never decreases the number of rows flagged as ruptures (given the `a1` run
flags at least one). -/
theorem claim_C9 (rng : Int → ℕ → ℚ) (series : List Observation)
    (c Theta0 sigma : ℚ) (seed : Int) (a1 a2 : ℚ)
    (rows1 rupt1 rows2 rupt2 : List DerivedRow) (t1 t2 : ℚ)
    (ha1 : 0 ≤ a1) (h12 : a1 < a2) (ha2 : a2 ≤ 1) (hT : 0 ≤ Theta0)
    (h1 : compute_rcc rng series c a1 Theta0 sigma seed = Except.ok (rows1, rupt1, t1))
    (h2 : compute_rcc rng series c a2 Theta0 sigma seed = Except.ok (rows2, rupt2, t2))
    (hne : rupt1 ≠ []) :
    rupt1.length ≤ rupt2.length := by
  obtain ⟨o, rest, hs, -, -, hrows1, hru1, -⟩ :=
    compute_rcc_ok rng series c a1 Theta0 sigma seed rows1 rupt1 t1 h1
  subst hs
  obtain ⟨o', rest', hs', -, -, hrows2, hru2, -⟩ :=
    compute_rcc_ok rng (o :: rest) c a2 Theta0 sigma seed rows2 rupt2 t2 h2
  injection hs' with he1 he2
  subst he1
  subst he2
  subst hrows1
  subst hrows2
  subst hru1
  subst hru2
  have hmono := rccLoop_mono (rng seed) c sigma a1 a2
    (le_trans ha1 (le_of_lt h12)) (le_of_lt h12) ha2 rest 1
    ⟨(deriveRow Theta0 o).theta, (deriveRow Theta0 o).delta,
     (deriveRow Theta0 o).isRupture⟩
    ⟨(deriveRow Theta0 o).theta, (deriveRow Theta0 o).delta,
     (deriveRow Theta0 o).isRupture⟩
    hT (le_refl _) rfl (fun x => x)
  have himp := List.Forall₂.imp
    (fun (r1 r2 : DerivedRow)
      (hh : r2.theta ≤ r1.theta ∧ (r1.isRupture = true → r2.isRupture = true)) =>
      hh.2) hmono
  exact filter_length_le_of_forall2 (fun r => r.isRupture) _ _
    (List.Forall₂.cons (fun hh => hh) himp)

/-- Witness for C9: raising the rupture sensitivity from 0 to 1 on the spec §8
scenario keeps the single rupture. -/
theorem claim_C9_witness :
    ((0 : ℚ) ≤ 0 ∧ (0 : ℚ) < 1 ∧ (1 : ℚ) ≤ 1 ∧ (0 : ℚ) ≤ 100 ∧
     compute_rcc demoRng demoSeries 0 0 100 0 1 = Except.ok (demoRows, demoRupt, 1500) ∧
     compute_rcc demoRng demoSeries 0 1 100 0 1 = Except.ok (demoRowsA1, demoRupt, 1500) ∧
     demoRupt ≠ []) ∧
    demoRupt.length ≤ demoRupt.length :=
  ⟨⟨le_refl 0, by norm_num, le_refl 1, by norm_num, demo_rcc_eq, demo_rcc_a1_eq,
    by simp [demoRupt]⟩,
   claim_C9 demoRng demoSeries 0 100 0 1 0 1 demoRows demoRupt demoRowsA1 demoRupt
     1500 1500 (le_refl 0) (by norm_num) (le_refl 1) (by norm_num)
     demo_rcc_eq demo_rcc_a1_eq (by simp [demoRupt])⟩

/-- C10: the application invokes the core with the seed fixed to 42 (src/app.py
line 47), the seed is not among the user-tunable sidebar controls, and two
application runs on the same input table with identical control settings
produce identical outputs. -/
theorem claim_C10 (rng : Int → ℕ → ℚ) (df df' : List Observation) (p p' : AppParams)
    (hdf : df = df') (hp : p = p') :
    app_pipeline rng df p = app_pipeline_seeded rng df p 42 ∧
    app_pipeline rng df p = app_pipeline rng df' p' := by
  subst hdf
  subst hp
  exact ⟨rfl, rfl⟩

/-- Witness for C10: the application-level determinism instantiated on the
spec §8 scenario's table and sidebar settings. -/
theorem claim_C10_witness :
    demoSeries = demoSeries ∧ demoParams = demoParams ∧
    (app_pipeline demoRng demoSeries demoParams =
      app_pipeline_seeded demoRng demoSeries demoParams 42 ∧
     app_pipeline demoRng demoSeries demoParams =
      app_pipeline demoRng demoSeries demoParams) :=
  ⟨rfl, rfl, claim_C10 demoRng demoSeries demoSeries demoParams demoParams rfl rfl⟩
